import Mathlib

/-!
Shallow embedding of `src/src/bin2llvmir/providers/names.cpp` (RetDec's name
registry for reverse-engineered binaries): the `Name` / `Names` /
`NameContainer` / `NamesProvider` components, with the file system passed in
explicitly as a function from paths to optional file contents.

Machine integers are modelled as `Nat` / `Int` (no claim below depends on
overflow behaviour); C++ mutable state is modelled by explicit state passing;
`std::set` / `std::map` are modelled as lists with the corresponding
insert/lookup semantics.
-/

/-- Provenance categories of a candidate name.  Modelled from the spec: the
enumeration `Name::eType` is declared in the header `retdec/bin2llvmir/providers/names.h`,
which is not under `src/`; the spec lists the categories
"in order of appearance in the source pipeline" and the source ranks them by
the enumeration value (`_type < o._type` in `Name::operator<`). -/
inductive eType
  | INVALID
  | CONFIG_ENTRY_POINT
  | CONFIG_FUNCTION
  | CONFIG_GLOBAL
  | CONFIG_SEGMENT
  | DEBUG_FUNCTION
  | DEBUG_GLOBAL
  | IMPORT_GENERATED
  | IMPORT
  | EXPORT
  | SYMBOL_FUNCTION
  | SYMBOL_OBJECT
  | SYMBOL_FILE
  | SYMBOL_OTHER
  | ENTRY_POINT
deriving DecidableEq

/-- Numeric value of the enumeration constant (declaration order). -/
def eType.rank : eType → Nat
  | .INVALID => 0
  | .CONFIG_ENTRY_POINT => 1
  | .CONFIG_FUNCTION => 2
  | .CONFIG_GLOBAL => 3
  | .CONFIG_SEGMENT => 4
  | .DEBUG_FUNCTION => 5
  | .DEBUG_GLOBAL => 6
  | .IMPORT_GENERATED => 7
  | .IMPORT => 8
  | .EXPORT => 9
  | .SYMBOL_FUNCTION => 10
  | .SYMBOL_OBJECT => 11
  | .SYMBOL_FILE => 12
  | .SYMBOL_OTHER => 13
  | .ENTRY_POINT => 14

/-- Modelled from the spec: `retdec::utils::Address` (external primitive, not
under `src/`) — an unsigned binary address with a distinguished
"undefined" sentinel value (`isUndefined`). -/
inductive Address
  | undef
  | addr (v : Nat)
deriving DecidableEq

/-- `Address::isUndefined`. -/
def Address.isUndefined : Address → Bool
  | .undef => true
  | .addr _ => false

/-- One candidate name: the stored text `_name` and its provenance `_type`
(class `Name` in names.cpp). A default-constructed `Name` is the invalid
sentinel (empty text, `INVALID` provenance, per the spec since the member
declarations live in the header). -/
structure Name where
  _name : String := ""
  _type : eType := eType.INVALID
deriving DecidableEq

/-- Modelled from the spec: `retdec::utils::normalizeNamePrefix` (from
`retdec/utils/string.h`, not under `src/`).  The spec describes no rewriting
besides the `"_main"`-to-`"main"` rule, which names.cpp performs itself after
this call, so the function is modelled as the identity. -/
def normalizeNamePfx (name : String) : String :=
  name

/-- The constructor `Name::Name(const std::string& name, eType type)`
(names.cpp lines 48-56): stores `normalizeNamePrefix(name)`, then rewrites a
resulting `"_main"` to `"main"`. -/
def Name.ofString (name : String) (type : eType) : Name :=
  let n := normalizeNamePfx name
  if n = "_main" then { _name := "main", _type := type }
  else { _name := n, _type := type }

/-- `Name::operator<` (names.cpp lines 68-78): primary key the provenance
enumeration value, secondary key lexical order on the text. -/
def Name.lt (a b : Name) : Bool :=
  if a._type = b._type then decide (a._name < b._name)
  else decide (a._type.rank < b._type.rank)

/-- The collection of candidate names at one address
(class `Names`, backed by `std::set<Name>`): the set's elements kept in
ascending `Name.lt` order with no two equivalent elements. -/
structure Names where
  _names : List Name := []
deriving DecidableEq

/-- `Names::_emptyName`: the static default-constructed (invalid) `Name`
returned for empty collections. -/
def Names._emptyName : Name :=
  { _name := "", _type := eType.INVALID }

/-- `std::set<Name>::emplace` on the sorted element list: insert in order,
no-op when an equivalent element (neither less nor greater) is present. -/
def setInsert : List Name → Name → List Name
  | [], x => [x]
  | y :: ys, x =>
    if Name.lt x y then x :: y :: ys
    else if Name.lt y x then y :: setInsert ys x
    else y :: ys

/-- `Names::addName` (names.cpp lines 102-111): rejects the empty string,
otherwise emplaces `Name(name, type)` and returns `true` unconditionally
(the emplace result is ignored). -/
def Names.addName (ns : Names) (name : String) (type : eType) : Bool × Names :=
  if name = "" then (false, ns)
  else (true, { _names := setInsert ns._names (Name.ofString name type) })

/-- `Names::getPreferredName` (names.cpp lines 113-116): the first element of
the ordered set, or the invalid sentinel when empty. -/
def Names.getPreferredName (ns : Names) : Name :=
  match ns._names with
  | [] => Names._emptyName
  | x :: _ => x

/-- `Names::size`. -/
def Names.size (ns : Names) : Nat :=
  ns._names.length

/-- Configuration-declared function (`p.second` with `getStart`, `getName`). -/
structure ConfigFunction where
  start : Address
  name : String
deriving DecidableEq

/-- Configuration-declared global (`p.second.getStorage().getAddress()`,
`p.second.getName()`); the storage address may be the undefined sentinel. -/
structure ConfigGlobal where
  storageAddress : Address
  name : String
deriving DecidableEq

/-- Configuration-declared segment (`s.getStart()`, `s.getName()`). -/
structure ConfigSegment where
  start : Address
  name : String
deriving DecidableEq

/-- The configuration collaborator, restricted to what names.cpp consumes:
entry point, declared functions/globals/segments, and
`parameters.getOrdinalNumbersDirectory()`. -/
structure Config where
  entryPoint : Address
  functions : List ConfigFunction
  globals : List ConfigGlobal
  segments : List ConfigSegment
  ordinalNumbersDirectory : String
deriving DecidableEq

/-- A debug-info global: `getStorage().isMemory(addr)` is modelled as an
optional memory address, plus `getName()`. -/
structure DebugGlobal where
  storageMemoryAddress : Option Address
  name : String
deriving DecidableEq

/-- The debug-info collaborator: functions keyed by address, and globals. -/
structure DebugFormat where
  functions : List (Address × String)
  globals : List DebugGlobal
deriving DecidableEq

/-- One import-table entry: `getAddress`, `getName`, `getLibraryIndex`,
and `getOrdinalNumber` (out-parameter + bool, modelled as `Option`). -/
structure ImportEntry where
  address : Address
  name : String
  libraryIndex : Nat
  ordinal : Option Nat
deriving DecidableEq

/-- The import table: entries plus the library-name list (`getLibrary`). -/
structure ImportTable where
  imports : List ImportEntry
  libraries : List String
deriving DecidableEq

/-- `ImportTable::getLibrary(i)`; out-of-range yields the empty string. -/
def ImportTable.getLibrary (t : ImportTable) (i : Nat) : String :=
  t.libraries.getD i ""

/-- One export-table entry (`getAddress` real address, `getName`). -/
structure ExportEntry where
  address : Nat
  name : String
deriving DecidableEq

/-- `retdec::fileformat::Symbol::UsageType`. -/
inductive UsageType
  | UNKNOWN
  | FUNCTION
  | OBJECT
  | FILE
deriving DecidableEq

/-- One symbol-table entry: `getRealAddress` (out-parameter + bool),
`getName`, `getUsageType`. -/
structure SymbolEntry where
  realAddress : Option Nat
  name : String
  usageType : UsageType
deriving DecidableEq

/-- The file-format part of the image: optional import/export tables, symbol
tables, optional entry-point address.  names.cpp dereferences `getFileFormat()`
unconditionally before its null check at line 327, so it is modelled non-null. -/
structure FileFormat where
  importTable : Option ImportTable
  exportTable : Option (List ExportEntry)
  symbolTables : List (List SymbolEntry)
  epAddress : Option Nat
deriving DecidableEq

/-- One loader segment (`getAddress`, `getName`). -/
structure SegmentEntry where
  address : Nat
  name : String
deriving DecidableEq

/-- The image collaborator: file format plus loader segments. -/
structure FileImage where
  fileFormat : FileFormat
  segments : List SegmentEntry
deriving DecidableEq

/-- The demangler collaborator: required non-null at provider creation but not
otherwise exercised by names.cpp. -/
structure CDemangler where
deriving DecidableEq

/-- An `llvm::Module*` session handle, identified by a numeric id. -/
abbrev LlvmModule := Nat

/-- `std::transform(libN.begin(), libN.end(), libN.begin(), ::tolower)`
(names.cpp line 263): the C locale lower-cases ASCII letters only. -/
def asciiLower (c : Char) : Char :=
  if 'A' ≤ c ∧ c ≤ 'Z' then Char.ofNat (c.toNat + 32) else c

/-- The whole-string lower-casing performed by the `std::transform` call. -/
def strToLower (s : String) : String :=
  String.mk (s.toList.map asciiLower)

/-- Modelled from the spec: `retdec::utils::removeSuffix` (from
`retdec/utils/string.h`, not under `src/`) — strips one trailing occurrence of
the given suffix. -/
def removeSuffix (s suffix : String) : String :=
  let n := s.toList.length
  let k := suffix.toList.length
  if k ≤ n ∧ s.toList.drop (n - k) = suffix.toList then
    String.mk (s.toList.take (n - k))
  else s

/-- Characters the C++ default locale treats as whitespace in stream input. -/
def isCppSpace (c : Char) : Bool :=
  c = ' ' ∨ c = '\t' ∨ c = '\n' ∨ c = '\x0b' ∨ c = '\x0c' ∨ c = '\r'

/-- Decimal value of a digit run. -/
def digitsVal (ds : List Char) : Nat :=
  ds.foldl (fun n c => 10 * n + (c.toNat - 48)) 0

/-- `stream >> (int&)` with the value previously holding `old`
(C++11 `num_get` semantics): skip whitespace; if that exhausts the input the
sentry fails and the value is left untouched; otherwise parse an optional sign
and digits — no digits means failure with `0` written to the value; success
yields the parsed value and the unread rest.  Returns (value, ok, rest). -/
def extractInt (old : Int) (cs : List Char) : Int × Bool × List Char :=
  let cs1 := cs.dropWhile isCppSpace
  if cs1.isEmpty then (old, false, cs1)
  else
    let sign : Int := if cs1.head? = some '-' then -1 else 1
    let cs2 := if cs1.head? = some '-' ∨ cs1.head? = some '+' then cs1.tail else cs1
    let ds := cs2.takeWhile Char.isDigit
    if ds.isEmpty then (0, false, cs2.dropWhile Char.isDigit)
    else (sign * (digitsVal ds : Int), true, cs2.dropWhile Char.isDigit)

/-- `stream >> (std::string&)`: skip whitespace, take the next
whitespace-delimited token (empty when the stream is exhausted). -/
def extractToken (cs : List Char) : String :=
  String.mk ((cs.dropWhile isCppSpace).takeWhile (fun c => ! isCppSpace c))

/-- The per-line body of `NameContainer::loadImportOrds` (lines 391-399):
`int ord = -1; std::string funcName; ordDecl >> ord >> funcName;
if (ord >= 0) ordMap[ord] = funcName;`.  Returns the map entry the line
produces, if any. -/
def parseOrdLine (line : List Char) : Option (Int × String) :=
  let r := extractInt (-1) line
  let ord := r.1
  let funcName := if r.2.1 then extractToken r.2.2 else ""
  if ord ≥ 0 then some (ord, funcName) else none

/-- Result of one `std::getline` call: the characters read, the unread rest,
and whether eofbit was set (the read was terminated by end of input rather
than by a newline, or the stream was already exhausted). -/
structure GetlineResult where
  line : List Char
  rest : List Char
  eof : Bool
deriving DecidableEq

/-- `std::getline(stream, line)` on the remaining input. -/
def cppGetline : List Char → GetlineResult
  | [] => { line := [], rest := [], eof := true }
  | c :: cs =>
    if c = '\n' then { line := [], rest := cs, eof := false }
    else
      let r := cppGetline cs
      { line := c :: r.line, rest := r.rest, eof := r.eof }

theorem cppGetline_rest_lt (cs : List Char) (h : (cppGetline cs).eof = false) :
    (cppGetline cs).rest.length < cs.length := by
  induction cs with
  | nil => simp [cppGetline] at h
  | cons c cs ih =>
    by_cases hc : c = '\n'
    · simp [cppGetline, hc]
    · simp only [cppGetline, if_neg hc] at h ⊢
      exact Nat.lt_trans (ih h) (Nat.lt_succ_self _)

/-- The read loop of `loadImportOrds` (line 389):
`while (!getline(inputFile, line).eof()) { ...process line... }` — the lines
that reach the loop body, in order.  A line whose read set eofbit (the final
line of input not terminated by a newline) is read but never processed. -/
def readLines (cs : List Char) : List (List Char) :=
  if h : (cppGetline cs).eof = true then []
  else (cppGetline cs).line :: readLines (cppGetline cs).rest
termination_by cs.length
decreasing_by
  exact cppGetline_rest_lt cs (Bool.not_eq_true _ ▸ h)

/-- `ordMap[ord] = funcName` on `std::map<int, std::string>` modelled as an
association list: overwrite the existing key or append a new binding. -/
def ordMapSet (m : List (Int × String)) (k : Int) (v : String) :
    List (Int × String) :=
  if m.any (fun p => decide (p.1 = k)) then
    m.map (fun p => if p.1 = k then (k, v) else p)
  else m ++ [(k, v)]

/-- `std::map<int, std::string>::find`. -/
def ordMapFind (m : List (Int × String)) (k : Int) : Option String :=
  (m.find? (fun p => decide (p.1 = k))).map (fun p => p.2)

/-- The whole-file parse performed by `loadImportOrds`: process every line the
read loop delivers, collecting `ordMap` insertions. -/
def buildOrdMap (content : String) : List (Int × String) :=
  (readLines content.toList).foldl
    (fun m line =>
      match parseOrdLine line with
      | some e => ordMapSet m e.1 e.2
      | none => m) []

/-- The name registry for one session (class `NameContainer`): the consumed
collaborators plus the mutable members `_data` (`std::map<Address, Names>`)
and `_dllOrds` (`std::map<std::string, ImportOrdMap>`), both modelled as
association lists. -/
structure NameContainer where
  _config : Config
  _debug : Option DebugFormat
  _image : FileImage
  _demangler : CDemangler
  _data : List (Address × Names) := []
  _dllOrds : List (String × List (Int × String)) := []
deriving DecidableEq

/-- `std::map<Address, Names>` lookup (the read part of `_data[a]`): the
stored collection, or a default-constructed empty one. -/
def mapGet (d : List (Address × Names)) (a : Address) : Names :=
  match d.find? (fun p => decide (p.1 = a)) with
  | some p => p.2
  | none => { _names := [] }

/-- Writing back through `_data[a]`: overwrite the existing binding or append
a fresh one (the default-construction-on-first-access of `operator[]`). -/
def mapSet (d : List (Address × Names)) (a : Address) (ns : Names) :
    List (Address × Names) :=
  if d.any (fun p => decide (p.1 = a)) then
    d.map (fun p => if p.1 = a then (a, ns) else p)
  else d ++ [(a, ns)]

/-- `NameContainer::addNameForAddress` (names.cpp lines 166-178): rejects an
undefined address or empty name, otherwise delegates to the `Names` at the
address (creating it if absent) and returns that call's result. -/
def NameContainer.addNameForAddress (s : NameContainer) (a : Address)
    (name : String) (type : eType) : Bool × NameContainer :=
  if a.isUndefined ∨ name = "" then (false, s)
  else
    let r := (mapGet s._data a).addName name type
    (r.1, { s with _data := mapSet s._data a r.2 })

/-- `NameContainer::getNamesForAddress` (lines 180-183): `_data[a]` — returns
the collection at the address, allocating an empty one on first access. -/
def NameContainer.getNamesForAddress (s : NameContainer) (a : Address) :
    Names × NameContainer :=
  (mapGet s._data a, { s with _data := mapSet s._data a (mapGet s._data a) })

/-- `NameContainer::getPreferredNameForAddress` (lines 185-188):
`_data[a].getPreferredName()`. -/
def NameContainer.getPreferredNameForAddress (s : NameContainer)
    (a : Address) : Name × NameContainer :=
  ((mapGet s._data a).getPreferredName,
   { s with _data := mapSet s._data a (mapGet s._data a) })

/-- `std::map::emplace` on `_dllOrds`: insert only when the key is absent. -/
def dllOrdsEmplace (d : List (String × List (Int × String))) (k : String)
    (v : List (Int × String)) : List (String × List (Int × String)) :=
  if d.any (fun p => decide (p.1 = k)) then d else d ++ [(k, v)]

/-- `NameContainer::loadImportOrds` (names.cpp lines 375-405): open
`<ordinals-directory>/<libName>.ord` (failure: return `false`, no state
change); parse it with the getline loop and per-line extraction; emplace the
resulting map (possibly empty) under `libName` and return `true`.  The file
system is the explicit argument `fs`. -/
def NameContainer.loadImportOrds (fs : String → Option String)
    (s : NameContainer) (libName : String) : Bool × NameContainer :=
  let dir := s._config.ordinalNumbersDirectory
  let filePath := dir ++ "/" ++ libName ++ ".ord"
  match fs filePath with
  | none => (false, s)
  | some content =>
    (true, { s with _dllOrds := dllOrdsEmplace s._dllOrds libName (buildOrdMap content) })

/-- `NameContainer::getNameFromImportLibAndOrd` (names.cpp lines 348-373):
look the library up in `_dllOrds`; on a miss, attempt `loadImportOrds` —
failure returns the empty string (with no cache entry made); then resolve the
ordinal in the cached map, empty string when absent. -/
def NameContainer.getNameFromImportLibAndOrd (fs : String → Option String)
    (s : NameContainer) (libName : String) (ord : Int) :
    String × NameContainer :=
  match s._dllOrds.find? (fun p => decide (p.1 = libName)) with
  | some p =>
    (match ordMapFind p.2 ord with
     | some n => (n, s)
     | none => ("", s))
  | none =>
    let r := NameContainer.loadImportOrds fs s libName
    if r.1 then
      match r.2._dllOrds.find? (fun p => decide (p.1 = libName)) with
      | some p =>
        (match ordMapFind p.2 ord with
         | some n => (n, r.2)
         | none => ("", r.2))
      | none => ("", r.2)
    else ("", r.2)

/-- `names::entryPointName` (declared in the header; per the spec the fixed
synthetic entry-point name literal). -/
def entryPointName : String := "entry_point"

/-- `names::generatedImportPrefix` (declared in the header; per the spec a
fixed prefix followed by the decimal ordinal). -/
def generatedImportPfx : String := "imported_function_ord_"

/-- `NameContainer::initFromConfig` (names.cpp lines 190-220). -/
def NameContainer.initFromConfig (s : NameContainer) : NameContainer :=
  let s := (s.addNameForAddress s._config.entryPoint entryPointName
      eType.CONFIG_ENTRY_POINT).2
  let s := s._config.functions.foldl
      (fun s f => (s.addNameForAddress f.start f.name eType.CONFIG_FUNCTION).2) s
  let s := s._config.globals.foldl
      (fun s g => (s.addNameForAddress g.storageAddress g.name
        eType.CONFIG_GLOBAL).2) s
  s._config.segments.foldl
      (fun s g => (s.addNameForAddress g.start g.name eType.CONFIG_SEGMENT).2) s

/-- `NameContainer::initFromDebug` (names.cpp lines 222-248): skipped when no
debug source; functions, then memory-resident globals. -/
def NameContainer.initFromDebug (s : NameContainer) : NameContainer :=
  match s._debug with
  | none => s
  | some d =>
    let s := d.functions.foldl
        (fun s p => (s.addNameForAddress p.1 p.2 eType.DEBUG_FUNCTION).2) s
    d.globals.foldl
        (fun s g =>
          match g.storageMemoryAddress with
          | some a => (s.addNameForAddress a g.name eType.DEBUG_GLOBAL).2
          | none => s) s

/-- The per-import body of `initFromImage` (names.cpp lines 253-289): a
named import is added directly; an unnamed one with an ordinal is resolved through
the normalized (lower-cased, `".dll"`-stripped) library name, falling back to
the generated `<prefix><ordinal>` placeholder; an unnamed one without an
ordinal reaches `addNameForAddress` with an empty name (a no-op). -/
def NameContainer.processImport (fs : String → Option String)
    (impTbl : ImportTable) (s : NameContainer) (imp : ImportEntry) :
    NameContainer :=
  let addr := imp.address
  let name := imp.name
  if name = "" then
    let libN := removeSuffix (strToLower (impTbl.getLibrary imp.libraryIndex)) ".dll"
    match imp.ordinal with
    | some ord =>
      let r := NameContainer.getNameFromImportLibAndOrd fs s libN (Int.ofNat ord)
      if r.1 = "" then
        (r.2.addNameForAddress addr (generatedImportPfx ++ toString ord)
          eType.IMPORT_GENERATED).2
      else
        (r.2.addNameForAddress addr r.1 eType.IMPORT).2
    | none => (s.addNameForAddress addr name eType.IMPORT).2
  else (s.addNameForAddress addr name eType.IMPORT).2

/-- `NameContainer::initFromImage` (names.cpp lines 250-346): imports,
exports, symbol tables, direct entry point, and segments (the last two both
under `ENTRY_POINT`, as in the source). -/
def NameContainer.initFromImage (fs : String → Option String)
    (s : NameContainer) : NameContainer :=
  let s :=
    match s._image.fileFormat.importTable with
    | none => s
    | some impTbl => impTbl.imports.foldl (NameContainer.processImport fs impTbl) s
  let s :=
    match s._image.fileFormat.exportTable with
    | none => s
    | some exTbl => exTbl.foldl
        (fun s (e : ExportEntry) =>
          (s.addNameForAddress (Address.addr e.address) e.name
            eType.EXPORT).2) s
  let s := s._image.fileFormat.symbolTables.foldl
    (fun s (t : List SymbolEntry) => t.foldl
      (fun s sym =>
        match sym.realAddress with
        | some a =>
          let ty :=
            match sym.usageType with
            | UsageType.FUNCTION => eType.SYMBOL_FUNCTION
            | UsageType.OBJECT => eType.SYMBOL_OBJECT
            | UsageType.FILE => eType.SYMBOL_FILE
            | _ => eType.SYMBOL_OTHER
          (s.addNameForAddress (Address.addr a) sym.name ty).2
        | none => s) s) s
  let s :=
    match s._image.fileFormat.epAddress with
    | some ep => (s.addNameForAddress (Address.addr ep) entryPointName
        eType.ENTRY_POINT).2
    | none => s
  s._image.segments.foldl
    (fun s (seg : SegmentEntry) =>
      (s.addNameForAddress (Address.addr seg.address) seg.name
        eType.ENTRY_POINT).2) s

/-- The constructor `NameContainer::NameContainer` (names.cpp lines 144-160):
store the collaborators and run the three population phases. -/
def NameContainer.construct (fs : String → Option String) (c : Config)
    (d : Option DebugFormat) (i : FileImage) (dm : CDemangler) :
    NameContainer :=
  NameContainer.initFromImage fs
    (NameContainer.initFromDebug
      (NameContainer.initFromConfig
        { _config := c, _debug := d, _image := i, _demangler := dm }))

/-- `NamesProvider::addNames` (names.cpp lines 415-433): null session /
config / image / demangler fails with `nullptr` (debug may be null);
otherwise construct a `NameContainer` and `emplace` it — when the session key
already exists the insertion is a no-op and the existing entry is returned. -/
def NamesProvider.addNames (fs : String → Option String)
    (st : List (LlvmModule × NameContainer)) (m : Option LlvmModule)
    (c : Option Config) (d : Option DebugFormat) (i : Option FileImage)
    (dm : Option CDemangler) :
    Option NameContainer × List (LlvmModule × NameContainer) :=
  match m, c, i, dm with
  | some m, some c, some i, some dm =>
    let nc := NameContainer.construct fs c d i dm
    match st.find? (fun p => decide (p.1 = m)) with
    | some p => (some p.2, st)
    | none => (some nc, st ++ [(m, nc)])
  | _, _, _, _ => (none, st)

/-- `NamesProvider::getNames` (lines 435-439): pure lookup. -/
def NamesProvider.getNames (st : List (LlvmModule × NameContainer))
    (m : LlvmModule) : Option NameContainer :=
  (st.find? (fun p => decide (p.1 = m))).map (fun p => p.2)

/-- `NamesProvider::clear` (lines 447-450). -/
def NamesProvider.clear (_st : List (LlvmModule × NameContainer)) :
    List (LlvmModule × NameContainer) :=
  []

/-! ## Helper lemmas -/

theorem findNone_any_false {α : Type} (l : List α) (p : α → Bool)
    (h : l.find? p = none) : l.any p = false := by
  rw [List.find?_eq_none] at h
  rw [Bool.eq_false_iff]
  intro hc
  rcases List.any_eq_true.mp hc with ⟨x, hx, hp⟩
  exact h x hx hp

theorem find?_append_last {α : Type} (l : List α) (p : α → Bool) (x : α)
    (h : l.find? p = none) (hx : p x = true) : (l ++ [x]).find? p = some x := by
  induction l with
  | nil => simp [List.find?, hx]
  | cons y ys ih =>
    cases hy : p y with
    | true => simp [List.find?, hy] at h
    | false =>
      simp only [List.find?, hy] at h
      simp only [List.cons_append, List.find?, hy]
      exact ih h

theorem find?_overwrite (d : List (Address × Names)) (a : Address) (ns : Names)
    (h : d.any (fun p => decide (p.1 = a)) = true) :
    (d.map (fun p => if p.1 = a then (a, ns) else p)).find?
        (fun p => decide (p.1 = a)) = some (a, ns) := by
  induction d with
  | nil => simp at h
  | cons y ys ih =>
    by_cases hy : y.1 = a
    · simp [List.find?, hy]
    · have h' : ys.any (fun p => decide (p.1 = a)) = true := by
        simpa [List.any_cons, hy] using h
      simpa [List.find?, hy] using ih h'

theorem mapSet_find (d : List (Address × Names)) (a : Address) (ns : Names) :
    (mapSet d a ns).find? (fun p => decide (p.1 = a)) = some (a, ns) := by
  by_cases h : d.any (fun p => decide (p.1 = a)) = true
  · rw [mapSet, if_pos h]
    exact find?_overwrite d a ns h
  · rw [mapSet, if_neg h]
    apply find?_append_last
    · rw [List.find?_eq_none]
      intro x hx hp
      exact h (List.any_eq_true.mpr ⟨x, hx, by simpa using hp⟩)
    · simp

theorem mapGet_mapSet (d : List (Address × Names)) (a : Address) (ns : Names) :
    mapGet (mapSet d a ns) a = ns := by
  rw [mapGet, mapSet_find]

theorem mapSet_any (d : List (Address × Names)) (a : Address) (ns : Names) :
    (mapSet d a ns).any (fun p => decide (p.1 = a)) = true := by
  by_cases h : d.any (fun p => decide (p.1 = a)) = true
  · rw [mapSet, if_pos h, List.any_map]
    rcases List.any_eq_true.mp h with ⟨x, hx, hp⟩
    apply List.any_eq_true.mpr
    refine ⟨x, hx, ?_⟩
    simp only [decide_eq_true_eq] at hp
    simp [Function.comp, hp]
  · rw [mapSet, if_neg h]
    exact List.any_eq_true.mpr ⟨(a, ns), by simp, by simp⟩

theorem map_overwrite_twice (d : List (Address × Names)) (a : Address)
    (ns ns' : Names) :
    (d.map (fun p => if p.1 = a then (a, ns) else p)).map
        (fun p => if p.1 = a then (a, ns') else p)
      = d.map (fun p => if p.1 = a then (a, ns') else p) := by
  rw [List.map_map]
  congr 1
  funext x
  by_cases hx : x.1 = a <;> simp [Function.comp, hx]

theorem map_overwrite_no_key (d : List (Address × Names)) (a : Address)
    (ns : Names) (h : d.any (fun p => decide (p.1 = a)) = false) :
    d.map (fun p => if p.1 = a then (a, ns) else p) = d := by
  induction d with
  | nil => rfl
  | cons y ys ih =>
    rw [List.any_cons, Bool.or_eq_false_iff] at h
    have hy : ¬ y.1 = a := by
      have h1 := h.1
      simpa using h1
    simp only [List.map_cons, if_neg hy, ih h.2]

theorem mapSet_mapSet (d : List (Address × Names)) (a : Address)
    (ns ns' : Names) :
    mapSet (mapSet d a ns) a ns' = mapSet d a ns' := by
  by_cases h : d.any (fun p => decide (p.1 = a)) = true
  · have hd : mapSet d a ns = d.map (fun p => if p.1 = a then (a, ns) else p) := by
      rw [mapSet, if_pos h]
    have hin : (d.map (fun p => if p.1 = a then (a, ns) else p)).any
        (fun p => decide (p.1 = a)) = true := by
      have h2 := mapSet_any d a ns
      rwa [hd] at h2
    rw [hd]
    rw [mapSet]
    rw [if_pos hin]
    rw [mapSet]
    rw [if_pos h]
    exact map_overwrite_twice d a ns ns'
  · have hfalse : d.any (fun p => decide (p.1 = a)) = false :=
      Bool.eq_false_iff.mpr h
    have hd : mapSet d a ns = d ++ [(a, ns)] := by
      rw [mapSet, if_neg h]
    have hin : (d ++ [(a, ns)]).any (fun p => decide (p.1 = a)) = true :=
      List.any_eq_true.mpr ⟨(a, ns), by simp, by simp⟩
    rw [hd]
    rw [mapSet]
    rw [if_pos hin]
    rw [mapSet]
    rw [if_neg h]
    rw [List.map_append, map_overwrite_no_key d a ns' hfalse]
    simp

theorem Name.ltIrrefl (a : Name) : Name.lt a a = false := by
  simp [Name.lt]

theorem Name.ltTrans (a b c : Name) (h1 : Name.lt a b = true)
    (h2 : Name.lt b c = true) : Name.lt a c = true := by
  simp only [Name.lt] at h1 h2 ⊢
  by_cases e1 : a._type = b._type <;> by_cases e2 : b._type = c._type
  · rw [if_pos e1] at h1
    rw [if_pos e2] at h2
    rw [if_pos (e1.trans e2)]
    simp only [decide_eq_true_eq] at h1 h2 ⊢
    exact lt_trans h1 h2
  · rw [if_pos e1] at h1
    rw [if_neg e2] at h2
    have e3 : a._type ≠ c._type := fun h => e2 (e1 ▸ h)
    rw [if_neg e3, e1]
    exact h2
  · rw [if_neg e1] at h1
    rw [if_pos e2] at h2
    have e3 : a._type ≠ c._type := fun h => e1 (h.trans e2.symm)
    rw [if_neg e3, ← e2]
    exact h1
  · rw [if_neg e1] at h1
    rw [if_neg e2] at h2
    simp only [decide_eq_true_eq] at h1 h2
    have e3 : a._type ≠ c._type := by
      intro h
      rw [h] at h1
      exact absurd (lt_trans h1 h2) (lt_irrefl _)
    rw [if_neg e3]
    simp only [decide_eq_true_eq]
    exact lt_trans h1 h2

theorem Name.ltAsymm (a b : Name) (h : Name.lt a b = true) :
    Name.lt b a = false := by
  by_contra hc
  rw [Bool.not_eq_false] at hc
  have h2 := Name.ltTrans a b a h hc
  rw [Name.ltIrrefl] at h2
  exact Bool.false_ne_true h2

/-- The sortedness invariant `std::set` maintains on its element sequence:
each adjacent pair is strictly ascending under `Name.lt`. -/
def sortedB : List Name → Bool
  | [] => true
  | [_] => true
  | x :: y :: l => Name.lt x y && sortedB (y :: l)

theorem sortedB_head_lt (l : List Name) :
    ∀ x, sortedB (x :: l) = true → ∀ y ∈ l, Name.lt x y = true := by
  induction l with
  | nil =>
    intro x _ y hy
    cases hy
  | cons z zs ih =>
    intro x h y hy
    have h1 : Name.lt x z = true := by
      simp only [sortedB, Bool.and_eq_true] at h
      exact h.1
    have h2 : sortedB (z :: zs) = true := by
      simp only [sortedB, Bool.and_eq_true] at h
      exact h.2
    cases hy with
    | head => exact h1
    | tail _ hy' => exact Name.ltTrans x z y h1 (ih z h2 y hy')

theorem setInsert_idem (l : List Name) (x : Name) :
    setInsert (setInsert l x) x = setInsert l x := by
  induction l with
  | nil =>
    simp [setInsert, Name.ltIrrefl]
  | cons y ys ih =>
    by_cases h1 : Name.lt x y = true
    · simp [setInsert, h1, Name.ltIrrefl]
    · by_cases h2 : Name.lt y x = true
      · simp [setInsert, h1, h2, ih]
      · simp [setInsert, h1, h2]

/-- Specification-level line splitter: the segments of the input between
newline characters (one more segment than there are newlines; the final
segment is the text after the last newline, empty when the input ends with a
newline or is empty). -/
def splitLines : List Char → List (List Char)
  | [] => [[]]
  | c :: cs =>
    if c = '\n' then [] :: splitLines cs
    else
      match splitLines cs with
      | [] => [[c]]
      | l :: ls => (c :: l) :: ls

theorem splitLines_ne_nil (cs : List Char) : splitLines cs ≠ [] := by
  cases cs with
  | nil => simp [splitLines]
  | cons c cs =>
    by_cases h : c = '\n'
    · simp [splitLines, h]
    · simp only [splitLines, if_neg h]
      cases splitLines cs <;> simp

theorem cppGetline_eof (cs : List Char) (h : (cppGetline cs).eof = true) :
    splitLines cs = [(cppGetline cs).line] := by
  induction cs with
  | nil => simp [cppGetline, splitLines]
  | cons c cs ih =>
    by_cases hc : c = '\n'
    · simp [cppGetline, hc] at h
    · simp only [cppGetline, if_neg hc] at h ⊢
      simp only [splitLines, if_neg hc]
      rw [ih h]

theorem cppGetline_not_eof (cs : List Char)
    (h : (cppGetline cs).eof = false) :
    splitLines cs
      = (cppGetline cs).line :: splitLines (cppGetline cs).rest := by
  induction cs with
  | nil => simp [cppGetline] at h
  | cons c cs ih =>
    by_cases hc : c = '\n'
    · simp [cppGetline, splitLines, hc]
    · simp only [cppGetline, if_neg hc] at h ⊢
      simp only [splitLines, if_neg hc]
      rw [ih h]

theorem readLines_eq_dropLast (cs : List Char) :
    readLines cs = (splitLines cs).dropLast := by
  generalize hn : cs.length = n
  induction n using Nat.strong_induction_on generalizing cs with
  | _ n ih =>
    subst hn
    rw [readLines]
    by_cases h : (cppGetline cs).eof = true
    · rw [dif_pos h, cppGetline_eof cs h]
      rfl
    · rw [dif_neg h]
      have h' : (cppGetline cs).eof = false := Bool.eq_false_iff.mpr h
      rw [cppGetline_not_eof cs h']
      cases hsp : splitLines (cppGetline cs).rest with
      | nil => exact absurd hsp (splitLines_ne_nil _)
      | cons b t =>
        rw [← hsp, List.dropLast_cons_of_ne_nil (by rw [hsp]; simp)]
        have := ih _ (cppGetline_rest_lt cs h') _ rfl
        rw [this]

/-- A successful first load for a fresh library key leaves the parsed map
cached under that key. -/
theorem loadImportOrds_fresh_find (fs : String → Option String)
    (s : NameContainer) (libName : String) (content : String)
    (hfresh : s._dllOrds.find? (fun p => decide (p.1 = libName)) = none)
    (hfile : fs (s._config.ordinalNumbersDirectory ++ "/" ++ libName ++ ".ord")
      = some content) :
    (NameContainer.loadImportOrds fs s libName)
      = (true, { s with _dllOrds := s._dllOrds ++ [(libName, buildOrdMap content)] }) := by
  rw [NameContainer.loadImportOrds]
  simp only [hfile]
  rw [dllOrdsEmplace,
    if_neg (by rw [findNone_any_false _ _ hfresh]; exact Bool.false_ne_true)]

/-- Appending a fresh key makes it findable. -/
theorem dllOrds_append_find (d : List (String × List (Int × String)))
    (k : String) (v : List (Int × String))
    (h : d.find? (fun p => decide (p.1 = k)) = none) :
    (d ++ [(k, v)]).find? (fun p => decide (p.1 = k)) = some (k, v) :=
  find?_append_last d _ (k, v) h (by simp)

/-! ## Concrete sample states used by counterexamples and witnesses -/

/-- A minimal configuration: no declarations, ordinal files under `"dir"`. -/
def cfg0 : Config :=
  { entryPoint := Address.undef, functions := [], globals := [],
    segments := [], ordinalNumbersDirectory := "dir" }

/-- A configuration declaring one function, used to distinguish populations. -/
def cfg1 : Config :=
  { cfg0 with functions := [{ start := Address.addr 4096, name := "init" }] }

/-- An image with no tables, no entry point and no segments. -/
def img0 : FileImage :=
  { fileFormat :=
      { importTable := none, exportTable := none, symbolTables := [],
        epAddress := none },
    segments := [] }

/-- A freshly constructed empty registry over the minimal collaborators. -/
def nc0 : NameContainer :=
  { _config := cfg0, _debug := none, _image := img0, _demangler := {} }

/-- A file system holding one well-formed ordinal file for library `"foo"`. -/
def fs4 : String → Option String :=
  fun p => if p = "dir/foo.ord" then some "7 CreateWidget\n" else none

/-- A file system whose `"foo"` ordinal file has one unparseable line. -/
def fs3 : String → Option String :=
  fun p => if p = "dir/foo.ord" then some "foo bar\n" else none

/-- A sorted two-element collection used to witness the preferred-name claim. -/
def ns7 : Names :=
  { _names := [Name.ofString "a" eType.IMPORT, Name.ofString "b" eType.EXPORT] }

/-! ## Claims -/

/-- C1, counterexample: `addNameForAddress` does NOT report whether a new
entry was actually added — a second call with the very same arguments
returns `true` again even though the collection is unchanged (size 1 both
times), because `Names::addName` ignores the `std::set::emplace` result. -/
theorem c1_counterexample :
    ((nc0.addNameForAddress (Address.addr 4096) "f" eType.IMPORT).2.addNameForAddress
        (Address.addr 4096) "f" eType.IMPORT).1 = true
    ∧ (((nc0.addNameForAddress (Address.addr 4096) "f" eType.IMPORT).2.addNameForAddress
        (Address.addr 4096) "f" eType.IMPORT).2.getNamesForAddress
        (Address.addr 4096)).1.size
      = (((nc0.addNameForAddress (Address.addr 4096) "f" eType.IMPORT).2).getNamesForAddress
        (Address.addr 4096)).1.size := by
  simp [NameContainer.addNameForAddress, NameContainer.getNamesForAddress,
    Names.addName, Names.size, mapGet, mapSet, setInsert, Name.ofString,
    normalizeNamePfx, Name.lt, nc0, cfg0, img0, Address.isUndefined]

/-- C1, amended: for every state, `addNameForAddress(a, t, p)` returns `true`
iff `a` is defined and `t` is non-empty — independently of whether the
`(provenance, text)` entry was already present (a duplicate call still
returns `true`, adding nothing). -/
theorem c1_theorem (s : NameContainer) (a : Address) (name : String)
    (type : eType) :
    (NameContainer.addNameForAddress s a name type).1 = true
      ↔ (a.isUndefined = false ∧ name ≠ "") := by
  by_cases hu : a.isUndefined = true
  · simp [NameContainer.addNameForAddress, hu]
  · by_cases hn : name = ""
    · simp [NameContainer.addNameForAddress, hn]
    · have hu' : a.isUndefined = false := Bool.eq_false_iff.mpr hu
      simp [NameContainer.addNameForAddress, Names.addName, hu', hn]

/-- C5: constructing a `Name` from the raw string `"_main"` stores `"main"`;
any other raw string is stored verbatim (the prefix normalization being the
identity per the spec), with the provenance kept as given and no truncation. -/
theorem c5_theorem (s : String) (type : eType) :
    (Name.ofString s type)._name = (if s = "_main" then "main" else s)
    ∧ (Name.ofString s type)._type = type := by
  by_cases h : s = "_main" <;>
    simp [Name.ofString, normalizeNamePfx, h]

/-- C6: with an empty text or the undefined address sentinel,
`addNameForAddress` returns `false` and leaves the registry state — hence the
address-to-collection mapping and every `getNamesForAddress` result —
completely unchanged. -/
theorem c6_theorem (s : NameContainer) (a : Address) (name : String)
    (type : eType) (h : a.isUndefined = true ∨ name = "") :
    (NameContainer.addNameForAddress s a name type).1 = false
    ∧ (NameContainer.addNameForAddress s a name type).2 = s := by
  rw [NameContainer.addNameForAddress, if_pos h]
  exact ⟨rfl, rfl⟩

theorem c6_witness :
    (Address.undef.isUndefined = true ∨ "x" = "")
    ∧ (NameContainer.addNameForAddress nc0 Address.undef "x" eType.IMPORT).1 = false
    ∧ (NameContainer.addNameForAddress nc0 Address.undef "x" eType.IMPORT).2 = nc0 :=
  ⟨Or.inl rfl,
   (c6_theorem nc0 Address.undef "x" eType.IMPORT (Or.inl rfl)).1,
   (c6_theorem nc0 Address.undef "x" eType.IMPORT (Or.inl rfl)).2⟩

/-- C8: `addNameForAddress` is idempotent on the registry state (for every
argument, including the guarded failure cases): repeating a call leaves the
state — and with it the `NameCollection` at the address, its elements and its
size — exactly as after the first call. -/
theorem c8_theorem (s : NameContainer) (a : Address) (name : String)
    (type : eType) :
    (NameContainer.addNameForAddress
        (NameContainer.addNameForAddress s a name type).2 a name type).2
      = (NameContainer.addNameForAddress s a name type).2 := by
  by_cases h : a.isUndefined = true ∨ name = ""
  · have e1 : NameContainer.addNameForAddress s a name type = (false, s) := by
      rw [NameContainer.addNameForAddress, if_pos h]
    rw [e1]
    show (NameContainer.addNameForAddress s a name type).2 = s
    rw [e1]
  · have hn : ¬ name = "" := fun hc => h (Or.inr hc)
    have e1 : NameContainer.addNameForAddress s a name type = (true, { s with _data := mapSet s._data a (Names.mk (setInsert (mapGet s._data a)._names (Name.ofString name type))) }) := by
      rw [NameContainer.addNameForAddress, if_neg h]
      simp [Names.addName, hn]
    rw [e1]
    rw [NameContainer.addNameForAddress, if_neg h]
    simp only [Names.addName, if_neg hn]
    simp only [mapGet_mapSet, setInsert_idem, mapSet_mapSet]

/-- C10: the read loop of `loadImportOrds` processes exactly the
newline-terminated lines of the file: `readLines` equals all
newline-separated segments with the last segment dropped.  Hence a file whose
content does not end with a newline never has its final line parsed into the
ordinal map, while a file ending with a newline has every one of its lines
processed (only the empty segment after the final newline is dropped). -/
theorem c10_theorem (cs : List Char) :
    readLines cs = (splitLines cs).dropLast :=
  readLines_eq_dropLast cs

/-- Characterization of a first (cache-miss) ordinal lookup: the result and
the new state are determined by the file at `<dir>/<L>.ord` — for the library
identifier `L` exactly as given. -/
theorem getFromLibOrd_fresh (fs : String → Option String) (s : NameContainer)
    (L : String) (o : Int)
    (hfresh : s._dllOrds.find? (fun p => decide (p.1 = L)) = none) :
    NameContainer.getNameFromImportLibAndOrd fs s L o
      = match fs (s._config.ordinalNumbersDirectory ++ "/" ++ L ++ ".ord") with
        | none => ("", s)
        | some content =>
          ((ordMapFind (buildOrdMap content) o).getD "",
           { s with _dllOrds := s._dllOrds ++ [(L, buildOrdMap content)] }) := by
  cases hfs : fs (s._config.ordinalNumbersDirectory ++ "/" ++ L ++ ".ord") with
  | none =>
    have hload : NameContainer.loadImportOrds fs s L = (false, s) := by
      rw [NameContainer.loadImportOrds]
      simp only [hfs]
    simp only [NameContainer.getNameFromImportLibAndOrd, hfresh, hload]
    simp
  | some content =>
    have hload := loadImportOrds_fresh_find fs s L content hfresh hfs
    have hfind : ({ s with _dllOrds := s._dllOrds ++ [(L, buildOrdMap content)] } :
        NameContainer)._dllOrds.find? (fun p => decide (p.1 = L))
        = some (L, buildOrdMap content) :=
      dllOrds_append_find s._dllOrds L (buildOrdMap content) hfresh
    simp only [NameContainer.getNameFromImportLibAndOrd, hfresh, hload, hfind]
    cases ordMapFind (buildOrdMap content) o <;> simp [Option.getD]

/-- A cache-hit ordinal lookup resolves in the cached map and leaves the
state untouched. -/
theorem getFromLibOrd_cached (fs : String → Option String) (s : NameContainer)
    (L : String) (o : Int) (p : String × List (Int × String))
    (hfound : s._dllOrds.find? (fun q => decide (q.1 = L)) = some p) :
    NameContainer.getNameFromImportLibAndOrd fs s L o
      = ((ordMapFind p.2 o).getD "", s) := by
  simp only [NameContainer.getNameFromImportLibAndOrd, hfound]
  cases ordMapFind p.2 o <;> simp [Option.getD]

/-- C2, counterexample: with no ordinal file present, the first
`getNameFromImportLibAndOrd` call for `"foo"` leaves NO cache entry for
`"foo"` behind (the negative result is not remembered), contradicting the
claim that after any first call the per-library cache contains an entry for
the library. -/
theorem c2_counterexample :
    ((NameContainer.getNameFromImportLibAndOrd (fun _ => none) nc0 "foo" 1).2._dllOrds.find?
        (fun p => decide (p.1 = "foo"))) = none
    ∧ (NameContainer.getNameFromImportLibAndOrd (fun _ => none) nc0 "foo" 1).1 = "" := by
  exact ⟨by decide, by decide⟩

/-- C2, amended: for a library not yet cached, a call with the ordinal file
PRESENT caches the parsed map under the library (so later calls return with
the registry unchanged, without re-attempting the load); a call with the file
ABSENT returns the empty string and leaves the registry — in particular the
cache — completely unchanged, so nothing is remembered and every later call
re-attempts the file load. -/
theorem c2_theorem (fs : String → Option String) (s : NameContainer)
    (L : String) (o o' : Int) (content : String)
    (hfresh : s._dllOrds.find? (fun p => decide (p.1 = L)) = none) :
    (fs (s._config.ordinalNumbersDirectory ++ "/" ++ L ++ ".ord") = none →
      NameContainer.getNameFromImportLibAndOrd fs s L o = ("", s))
    ∧ (fs (s._config.ordinalNumbersDirectory ++ "/" ++ L ++ ".ord") = some content →
      ((NameContainer.getNameFromImportLibAndOrd fs s L o).2._dllOrds.find?
          (fun p => decide (p.1 = L)) = some (L, buildOrdMap content))
      ∧ (NameContainer.getNameFromImportLibAndOrd fs
          (NameContainer.getNameFromImportLibAndOrd fs s L o).2 L o').2
        = (NameContainer.getNameFromImportLibAndOrd fs s L o).2) := by
  constructor
  · intro hfs
    rw [getFromLibOrd_fresh fs s L o hfresh]
    simp only [hfs]
  · intro hfs
    have h1 := getFromLibOrd_fresh fs s L o hfresh
    rw [hfs] at h1
    have hfind : ({ s with _dllOrds := s._dllOrds ++ [(L, buildOrdMap content)] } :
        NameContainer)._dllOrds.find? (fun p => decide (p.1 = L))
        = some (L, buildOrdMap content) :=
      dllOrds_append_find s._dllOrds L (buildOrdMap content) hfresh
    constructor
    · rw [h1]
      exact hfind
    · rw [h1]
      rw [getFromLibOrd_cached fs _ L o' (L, buildOrdMap content) hfind]

theorem c2_witness :
    (nc0._dllOrds.find? (fun p => decide (p.1 = "foo")) = none)
    ∧ fs4 (nc0._config.ordinalNumbersDirectory ++ "/" ++ "foo" ++ ".ord")
        = some "7 CreateWidget\n"
    ∧ ((NameContainer.getNameFromImportLibAndOrd fs4 nc0 "foo" 7).2._dllOrds.find?
        (fun p => decide (p.1 = "foo")) = some ("foo", buildOrdMap "7 CreateWidget\n"))
    ∧ (NameContainer.getNameFromImportLibAndOrd fs4
        (NameContainer.getNameFromImportLibAndOrd fs4 nc0 "foo" 7).2 "foo" 9).2
      = (NameContainer.getNameFromImportLibAndOrd fs4 nc0 "foo" 7).2 := by
  refine ⟨rfl, by decide, ?_, ?_⟩
  · exact ((c2_theorem fs4 nc0 "foo" 7 9 "7 CreateWidget\n" rfl).2 (by decide)).1
  · exact ((c2_theorem fs4 nc0 "foo" 7 9 "7 CreateWidget\n" rfl).2 (by decide)).2

/-- C3, code-bug evaluation: the line `"foo bar"` has no parseable
non-negative ordinal, yet (with the C++11 semantics of a failed `>>`
extraction writing `0`) it DOES contribute the entry `0 -> ""` to the ordinal
map; a blank line, whose extraction fails already at the sentry, is skipped
as intended. -/
theorem c3_eval :
    parseOrdLine "foo bar".toList = some ((0 : Int), "")
    ∧ parseOrdLine "".toList = none
    ∧ ((NameContainer.loadImportOrds fs3 nc0 "foo").2._dllOrds.find?
        (fun p => decide (p.1 = "foo"))) = some ("foo", [((0 : Int), "")]) := by
  refine ⟨by decide, by decide, ?_⟩
  rw [loadImportOrds_fresh_find fs3 nc0 "foo" "foo bar\n" rfl (by decide)]
  have hb : buildOrdMap "foo bar\n" = [((0 : Int), "")] := by
    rw [buildOrdMap, readLines_eq_dropLast]
    decide
  simp [hb, nc0]

/-- C4, counterexample: `getNameFromImportLibAndOrd` does not normalize the
library identifier itself — with the ordinal file stored for the normalized
name `"foo"`, a call with the raw name `"FOO.DLL"` resolves nothing while the
call with the normalized name succeeds. -/
theorem c4_counterexample :
    removeSuffix (strToLower "FOO.DLL") ".dll" = "foo"
    ∧ (NameContainer.getNameFromImportLibAndOrd fs4 nc0 "FOO.DLL" 7).1 = ""
    ∧ (NameContainer.getNameFromImportLibAndOrd fs4 nc0 "foo" 7).1 = "CreateWidget" := by
  refine ⟨by decide, ?_, ?_⟩
  · rw [getFromLibOrd_fresh fs4 nc0 "FOO.DLL" 7 rfl]
    simp [fs4, nc0, cfg0]
  · rw [getFromLibOrd_fresh fs4 nc0 "foo" 7 rfl]
    have hb : buildOrdMap "7 CreateWidget\n" = [((7 : Int), "CreateWidget")] := by
      rw [buildOrdMap, readLines_eq_dropLast]
      decide
    simp [fs4, nc0, cfg0, hb, ordMapFind]

/-- C4, amended: `getNameFromImportLibAndOrd` uses the library identifier
verbatim — on a cache miss its result is exactly the lookup in the map parsed
from `<ordinals-directory>/<L>.ord` for `L` as given (normalization to
lower case with the `".dll"` suffix stripped is performed by its caller,
`initFromImage`, before the call — see `NameContainer.processImport`). -/
theorem c4_theorem (fs : String → Option String) (s : NameContainer)
    (L : String) (o : Int)
    (hfresh : s._dllOrds.find? (fun p => decide (p.1 = L)) = none) :
    (NameContainer.getNameFromImportLibAndOrd fs s L o).1
      = match fs (s._config.ordinalNumbersDirectory ++ "/" ++ L ++ ".ord") with
        | none => ""
        | some content => (ordMapFind (buildOrdMap content) o).getD "" := by
  rw [getFromLibOrd_fresh fs s L o hfresh]
  cases fs (s._config.ordinalNumbersDirectory ++ "/" ++ L ++ ".ord") <;> rfl

theorem c4_witness :
    (nc0._dllOrds.find? (fun p => decide (p.1 = "foo")) = none)
    ∧ (NameContainer.getNameFromImportLibAndOrd fs4 nc0 "foo" 7).1
      = match fs4 (nc0._config.ordinalNumbersDirectory ++ "/" ++ "foo" ++ ".ord") with
        | none => ""
        | some content => (ordMapFind (buildOrdMap content) 7).getD "" :=
  ⟨rfl, c4_theorem fs4 nc0 "foo" 7 rfl⟩

/-- C7: on a sorted collection (the invariant of the backing `std::set`),
`getPreferredName` of a non-empty collection is the minimum element of the
total order `Name.lt` (it belongs to the collection, nothing in the
collection is below it); on an empty collection it is the invalid sentinel;
and `getPreferredNameForAddress` on an address never touched returns the
invalid sentinel — and, being total, the call never fails. -/
theorem c7_theorem (ns : Names) (h : sortedB ns._names = true)
    (s : NameContainer) (a : Address)
    (ha : s._data.find? (fun p => decide (p.1 = a)) = none) :
    (ns._names ≠ [] →
      ns.getPreferredName ∈ ns._names
      ∧ ∀ y ∈ ns._names, Name.lt y ns.getPreferredName = false)
    ∧ (ns._names = [] → ns.getPreferredName = Names._emptyName)
    ∧ (s.getPreferredNameForAddress a).1 = Names._emptyName := by
  refine ⟨?_, ?_, ?_⟩
  · intro hne
    cases hns : ns._names with
    | nil => exact absurd hns hne
    | cons x l =>
      have hpref : ns.getPreferredName = x := by
        simp only [Names.getPreferredName, hns]
      rw [hpref]
      constructor
      · exact List.mem_cons_self x l
      · intro y hy
        cases hy with
        | head => exact Name.ltIrrefl x
        | tail _ hy' =>
          have hs : sortedB (x :: l) = true := by
            rw [← hns]
            exact h
          exact Name.ltAsymm x y (sortedB_head_lt l x hs y hy')
  · intro hnil
    simp only [Names.getPreferredName, hnil]
  · simp only [NameContainer.getPreferredNameForAddress, mapGet, ha]
    rfl

theorem c7_witness :
    sortedB ns7._names = true
    ∧ nc0._data.find? (fun p => decide (p.1 = Address.addr 8192)) = none
    ∧ ns7.getPreferredName ∈ ns7._names
    ∧ (nc0.getPreferredNameForAddress (Address.addr 8192)).1 = Names._emptyName := by
  refine ⟨by decide, rfl, ?_, ?_⟩
  · exact ((c7_theorem ns7 (by decide) nc0 (Address.addr 8192) rfl).1 (by decide)).1
  · exact (c7_theorem ns7 (by decide) nc0 (Address.addr 8192) rfl).2.2

/-- C9: `NamesProvider::addNames` is first-writer-wins: a first call for a
fresh session stores the registry constructed from that call's sources; a
second call for the same session — with arbitrary different valid sources —
returns the registry stored by the first call and leaves the provider table
unchanged (the freshly constructed second registry is discarded). -/
theorem c9_theorem (fs : String → Option String)
    (st0 : List (LlvmModule × NameContainer)) (m : LlvmModule)
    (c1 c2 : Config) (d1 d2 : Option DebugFormat) (i1 i2 : FileImage)
    (dm1 dm2 : CDemangler)
    (h : st0.find? (fun p => decide (p.1 = m)) = none) :
    NamesProvider.addNames fs st0 (some m) (some c1) d1 (some i1) (some dm1)
      = (some (NameContainer.construct fs c1 d1 i1 dm1),
         st0 ++ [(m, NameContainer.construct fs c1 d1 i1 dm1)])
    ∧ NamesProvider.addNames fs
        (st0 ++ [(m, NameContainer.construct fs c1 d1 i1 dm1)])
        (some m) (some c2) d2 (some i2) (some dm2)
      = (some (NameContainer.construct fs c1 d1 i1 dm1),
         st0 ++ [(m, NameContainer.construct fs c1 d1 i1 dm1)]) := by
  have hfind : (st0 ++ [(m, NameContainer.construct fs c1 d1 i1 dm1)]).find?
      (fun p => decide (p.1 = m))
      = some (m, NameContainer.construct fs c1 d1 i1 dm1) :=
    find?_append_last st0 _ _ h (by simp)
  constructor
  · simp only [NamesProvider.addNames, h]
  · simp only [NamesProvider.addNames, hfind]

theorem c9_witness :
    (([] : List (LlvmModule × NameContainer)).find?
        (fun p => decide (p.1 = 1)) = none)
    ∧ NamesProvider.addNames (fun _ => none) [] (some 1) (some cfg0) none
        (some img0) (some CDemangler.mk)
      = (some (NameContainer.construct (fun _ => none) cfg0 none img0 CDemangler.mk),
         [] ++ [(1, NameContainer.construct (fun _ => none) cfg0 none img0 CDemangler.mk)])
    ∧ NamesProvider.addNames (fun _ => none)
        ([] ++ [(1, NameContainer.construct (fun _ => none) cfg0 none img0 CDemangler.mk)])
        (some 1) (some cfg1) none (some img0) (some CDemangler.mk)
      = (some (NameContainer.construct (fun _ => none) cfg0 none img0 CDemangler.mk),
         [] ++ [(1, NameContainer.construct (fun _ => none) cfg0 none img0 CDemangler.mk)]) :=
  ⟨rfl,
   (c9_theorem (fun _ => none) [] 1 cfg0 cfg1 none none img0 img0
     CDemangler.mk CDemangler.mk rfl).1,
   (c9_theorem (fun _ => none) [] 1 cfg0 cfg1 none none img0 img0
     CDemangler.mk CDemangler.mk rfl).2⟩
